import Mathlib

/-!
Verification of the perovskite synthesis upload frontend: the paste
ingestion engine and table model of DataTable.jsx, the submission
orchestration of MainForm.jsx, the batch disambiguation handlers of
BatchResolution.jsx, and the suspension and cancellation handlers of
App.jsx.  JavaScript objects holding row cells are modelled as
insertion-ordered association lists; the external capabilities (resolve
batch, upload, create batch) are modelled by passing their responses in
as parameters and recording the network calls a handler issues in an
explicit list.
-/

namespace Synthesis

/-- A table row: the transient UI identifier plus the cells, an
insertion-ordered association list from field name to string value,
mirroring the JavaScript object the grid edits. -/
structure SampleRow where
  id : String
  cells : List (String × String)
deriving Repr, DecidableEq

/-- A cleaned row: the cells of a row after the transient id is stripped
(the rest object of destructuring id out of a row). -/
abbrev CleanRow := List (String × String)

/-- Reading row[f] on the row object: the value at key f, or the empty
string when the key is absent (an absent key is undefined, which every
guard in the component treats exactly like the empty string). -/
def getCell (r : SampleRow) (f : String) : String :=
  ((r.cells.find? (fun p => p.1 == f)).map Prod.snd).getD ""

/-- Writing row[f] = v on the row object: updates the value in place when
the key exists, otherwise appends the key at the end, as JavaScript
objects preserve key insertion order. -/
def setCell (cells : List (String × String)) (f v : String) : List (String × String) :=
  if cells.any (fun p => p.1 == f) then
    cells.map (fun p => if p.1 == f then (f, v) else p)
  else
    cells ++ [(f, v)]

/-- JavaScript String.prototype.trim, modelled on the character list of
the string (the built-in byte-position trim does not reduce in the
kernel): strips leading and trailing whitespace characters. -/
def jsTrim (s : String) : String :=
  ⟨((s.data.dropWhile Char.isWhitespace).reverse.dropWhile Char.isWhitespace).reverse⟩

/-- Splits a character list at every occurrence of the separator; the
accumulator holds the current segment reversed. -/
def splitCharAux (c : Char) : List Char → List Char → List (List Char)
  | [], acc => [acc.reverse]
  | x :: xs, acc =>
    if x = c then acc.reverse :: splitCharAux c xs [] else splitCharAux c xs (x :: acc)

/-- JavaScript String.prototype.split with a single-character separator
(the only separators the component uses are newline, tab and comma):
splitting the empty string yields one empty segment, and a trailing
separator yields a trailing empty segment, as in JavaScript. -/
def splitChar (c : Char) (s : String) : List String :=
  (splitCharAux c s.data []).map (fun l => ⟨l⟩)

/-- A rendered column of the data grid (DataTable.jsx columns memo); the
key, display name and width are kept, the rendering-only props
(resizable, renderEditCell) are outside the modelled scope. -/
structure Column where
  key : String
  name : String
  width : Nat
deriving Repr, DecidableEq

/-- DataTable.jsx columns memo: empty when the schema is empty (the
component is disabled then), otherwise Sample Name when found, then
Operator, then Timestamp, then the other fields in schema order, then
Sample Description when found. -/
def columns (fields : List String) : List Column :=
  if fields.length = 0 then []
  else
    (match fields.find? (fun f => f == "Sample Name") with
     | some f => [{ key := f, name := f, width := 150 }]
     | none => []) ++
    [{ key := "Operator", name := "Operator", width := 150 },
     { key := "Timestamp", name := "Timestamp", width := 120 }] ++
    (fields.filter (fun f => !(f == "Sample Name") && !(f == "Sample Description"))).map
      (fun f => { key := f, name := f, width := 150 }) ++
    (match fields.find? (fun f => f == "Sample Description") with
     | some f => [{ key := f, name := f, width := 200 }]
     | none => [])

/-- The column order DataTable.jsx handlePaste builds to map pasted cells
onto: Sample Name when found, Operator, Timestamp, the remaining fields
in schema order, Sample Description when found. -/
def pasteColumnOrder (fields : List String) : List String :=
  (match fields.find? (fun f => f == "Sample Name") with
   | some f => [f]
   | none => []) ++
  ["Operator", "Timestamp"] ++
  fields.filter (fun f => !(f == "Sample Name") && !(f == "Sample Description")) ++
  (match fields.find? (fun f => f == "Sample Description") with
   | some f => [f]
   | none => [])

/-- Per-line delimiter choice of handlePaste: split on tab when the line
contains one, otherwise split on comma. -/
def splitCells (line : String) : List String :=
  if line.data.contains '\t' then splitChar '\t' line else splitChar ',' line

/-- One row produced from a parsed pasted line (DataTable.jsx
handlePaste): the object starts with Timestamp empty and Operator set to
the operator name, every schema field is then initialised to empty, and
cell i is written to the column at position i of the paste column order,
cells beyond that order being discarded. -/
def mkPastedRow (fields : List String) (operatorName : String) (rowIdx : Nat)
    (cells : List String) : SampleRow :=
  let base := [("Timestamp", ""), ("Operator", operatorName)]
  let withFields := fields.foldl (fun acc f => setCell acc f "") base
  let order := pasteColumnOrder fields
  let filled := cells.enum.foldl
    (fun acc p => if p.1 < order.length then setCell acc (order.getD p.1 "") p.2 else acc)
    withFields
  { id := "row-" ++ toString rowIdx, cells := filled }

/-- DataTable.jsx handlePaste as a pure function from the current table
and the pasted text to the next table: the text is split on newline,
all-whitespace lines dropped, each remaining line split by its per-line
delimiter with every cell trimmed, one row built per line, and the new
rows appended after the existing ones; a paste with no non-blank line
leaves the table unchanged. -/
def handlePaste (fields : List String) (operatorName : String)
    (rows : List SampleRow) (pastedData : String) : List SampleRow :=
  let pastedRows := (splitChar '\n' pastedData).filter (fun l => !(jsTrim l == ""))
  if pastedRows.length = 0 then rows
  else
    let parsedRows := pastedRows.map (fun s => (splitCells s).map jsTrim)
    let newRows := parsedRows.enum.map
      (fun p => mkPastedRow fields operatorName (rows.length + p.1) p.2)
    rows ++ newRows

/-- The row filter DataTable.jsx applies before notifying the parent:
fields.some of row[field] being present with a non-whitespace value. -/
def rowNonEmpty (fields : List String) (r : SampleRow) : Bool :=
  fields.any (fun f => !(jsTrim (getCell r f) == ""))

/-- The cleaning step shared by handleRowsChange, handlePaste and
handleRemoveRow in DataTable.jsx: drop every row whose schema fields are
all blank, then strip the transient id from each remaining row. -/
def cleanedRows (fields : List String) (rows : List SampleRow) : List CleanRow :=
  (rows.filter (fun r => rowNonEmpty fields r)).map SampleRow.cells

/-- DataTable.jsx handleRemoveRow: when the table is non-empty, drop the
last row and notify the parent with the cleaned view of the remaining
rows; when it is empty, do nothing and emit no notification (the second
component is the argument of the onChange call, none when onChange is
not called). -/
def handleRemoveRow (fields : List String) (rows : List SampleRow) :
    List SampleRow × Option (List CleanRow) :=
  if rows.length > 0 then
    (rows.dropLast, some (cleanedRows fields rows.dropLast))
  else
    (rows, none)

/-- The logged-in user as the handlers read it. -/
structure UserInfo where
  name : String
  email : String
  orcid : String
  projects : List String
deriving Repr, DecidableEq

/-- The status tag of a batch resolution response (backend contract). -/
inductive ResolutionStatus where
  | resolved
  | not_found
  | multiple_matches
deriving Repr, DecidableEq

/-- One candidate of a multiple-matches resolution response. -/
structure BatchMatch where
  unique_id : String
  sample_name : String
  description : String
deriving Repr, DecidableEq

/-- A batch resolution response: the status, the resolved batch unique id
when resolved, the echoed input text when not found, and the candidate
list when there are multiple matches. -/
structure Resolution where
  status : ResolutionStatus
  batch_id : Option String
  input : String
  «matches» : List BatchMatch
deriving Repr, DecidableEq

/-- The pending payload MainForm hands to the app when a submission
suspends for disambiguation: project, synthesis type and cleaned rows. -/
structure PendingUpload where
  project : String
  synthesisType : String
  data : List CleanRow
deriving Repr, DecidableEq

/-- The upload payload shape built by performUpload in MainForm.jsx and
by the resolution handlers in App.jsx. -/
structure UploadData where
  email : String
  orcid : String
  user_name : String
  project : String
  synthesis_type : String
  batch_id : Option String
  data : List CleanRow
deriving Repr, DecidableEq

/-- A network call a handler can issue through the api service. -/
inductive NetCall where
  | resolveBatch (batch_id orcid project : String)
  | uploadSynthesis (payload : UploadData)
  | createBatch (batch_name batch_id batch_description orcid project : String)
deriving Repr, DecidableEq

/-- The outcome of one invocation of MainForm.jsx handleUpload. -/
inductive UploadOutcome where
  | validationError (message : String)
  | suspended (resolution : Resolution) (pending : PendingUpload)
  | uploaded (payload : UploadData)
deriving Repr, DecidableEq

/-- Builds the upload payload from the user, selections, resolved batch
id (none models the null batch id) and cleaned rows. -/
def mkUploadData (u : UserInfo) (project synthesis_type : String)
    (batch_id : Option String) (data : List CleanRow) : UploadData :=
  { email := u.email, orcid := u.orcid, user_name := u.name,
    project := project, synthesis_type := synthesis_type,
    batch_id := batch_id, data := data }

/-- MainForm.jsx handleUpload as a pure function of the form state and
the resolve capability response (consulted only when a trimmed batch id
text is non-empty): validates project, synthesis type and table data in
that order, then either suspends on a not-found or multiple-matches
resolution or proceeds to upload; the second component lists the network
calls the invocation issues, in order. -/
def handleUpload (u : UserInfo) (selectedProject selectedSynthesisType batchId : String)
    (tableData : List CleanRow) (resolveResp : Resolution) :
    UploadOutcome × List NetCall :=
  if selectedProject = "" then
    (UploadOutcome.validationError "Please select a project", [])
  else if selectedSynthesisType = "" then
    (UploadOutcome.validationError "Please select a synthesis type", [])
  else if tableData.length = 0 then
    (UploadOutcome.validationError "Please enter at least one row of data", [])
  else if jsTrim batchId ≠ "" then
    if resolveResp.status = ResolutionStatus.not_found ∨
        resolveResp.status = ResolutionStatus.multiple_matches then
      (UploadOutcome.suspended resolveResp
        { project := selectedProject, synthesisType := selectedSynthesisType, data := tableData },
       [NetCall.resolveBatch (jsTrim batchId) u.orcid selectedProject])
    else
      let payload := mkUploadData u selectedProject selectedSynthesisType resolveResp.batch_id tableData
      (UploadOutcome.uploaded payload,
       [NetCall.resolveBatch (jsTrim batchId) u.orcid selectedProject, NetCall.uploadSynthesis payload])
  else
    let payload := mkUploadData u selectedProject selectedSynthesisType none tableData
    (UploadOutcome.uploaded payload, [NetCall.uploadSynthesis payload])

/-- The outcome of one invocation of BatchResolution.jsx
handleSelectBatch. -/
inductive SelectOutcome where
  | selectError (message : String)
  | resolvedSelection (unique_id : String)
  | noSelection
deriving Repr, DecidableEq

/-- BatchResolution.jsx handleSelectBatch: an empty selection raises the
validation error; otherwise the candidate with the selected unique id is
looked up and, when found, resolution proceeds with its unique id; when
the selection is absent from the candidate list the handler silently
does nothing (no error is set and onResolve is not invoked).  The second
component lists the network calls issued: none, in every branch. -/
def handleSelectBatch («matches» : List BatchMatch) (selectedBatch : String) :
    SelectOutcome × List NetCall :=
  if selectedBatch = "" then
    (SelectOutcome.selectError "Please select a batch from the list", [])
  else
    match «matches».find? (fun m => m.unique_id == selectedBatch) with
    | some m => (SelectOutcome.resolvedSelection m.unique_id, [])
    | none => (SelectOutcome.noSelection, [])

/-- The top-level view of App.jsx. -/
inductive View where
  | login
  | main
  | batch_resolution
  | summary
deriving Repr, DecidableEq

/-- The slice of App.jsx state the resolution handlers touch. -/
structure AppState where
  currentView : View
  batchResolution : Option Resolution
  pendingUploadData : Option PendingUpload
deriving Repr, DecidableEq

/-- App.jsx handleShowBatchResolution: stores the resolution result and
the pending payload and switches to the batch resolution view. -/
def handleShowBatchResolution (s : AppState) (resolution : Resolution)
    (uploadData : PendingUpload) : AppState :=
  { s with batchResolution := some resolution,
           pendingUploadData := some uploadData,
           currentView := View.batch_resolution }

/-- An upload capability response as the handlers read it. -/
structure UploadResponse where
  success : Bool
  message : String
deriving Repr, DecidableEq

/-- What one invocation of App.jsx handleBatchResolutionCancel does: the
network calls it issues, the view it leaves the app in, and the
resolution and pending state it leaves behind. -/
structure CancelResult where
  calls : List NetCall
  nextView : View
  batchResolution : Option Resolution
  pendingUploadData : Option PendingUpload
deriving Repr, DecidableEq

/-- App.jsx handleBatchResolutionCancel as a pure function of the user,
the pending payload and the upload capability response: builds the
upload payload with batch_id null from the preserved pending data,
issues the upload call, moves to the summary view on success and back to
the main (editable) view on failure, and clears the resolution and
pending state in both cases. -/
def handleBatchResolutionCancel (u : UserInfo) (pending : PendingUpload)
    (resp : UploadResponse) : CancelResult :=
  { calls := [NetCall.uploadSynthesis
      (mkUploadData u pending.project pending.synthesisType none pending.data)],
    nextView := if resp.success then View.summary else View.main,
    batchResolution := none,
    pendingUploadData := none }

/-- The column ordering rule as the specification states it: Sample Name
first when present, then Operator, then Timestamp, then the remaining
schema fields in their original relative order excluding Sample Name and
Sample Description, then Sample Description last when present.  Stated
from the specification to compare with the orders the component
computes. -/
def specColumnOrder (fields : List String) : List String :=
  (if fields.any (fun f => f == "Sample Name") then ["Sample Name"] else []) ++
    ["Operator", "Timestamp"] ++
    fields.filter (fun f => !(f == "Sample Name") && !(f == "Sample Description")) ++
    (if fields.any (fun f => f == "Sample Description") then ["Sample Description"] else [])

/-- The lines of a pasted text that are not entirely whitespace (the
specification's claimed row count of a paste). -/
def nonBlankLines (text : String) : List String :=
  (splitChar '\n' text).filter (fun l => !(jsTrim l == ""))

/-- A row in which every schema field is empty or whitespace-only (the
specification's emptiness predicate; Operator and Timestamp are not
schema fields, so they do not count). -/
def rowIsBlank (fields : List String) (r : SampleRow) : Prop :=
  ∀ f ∈ fields, jsTrim (getCell r f) = ""

instance instDecidableRowIsBlank (fields : List String) (r : SampleRow) :
    Decidable (rowIsBlank fields r) :=
  List.decidableBAll (fun f => jsTrim (getCell r f) = "") fields

/-- A concrete user for instantiating the handler theorems. -/
def demoUser : UserInfo :=
  { name := "Alice", email := "alice@lab.test", orcid := "0000-0001", projects := ["P1"] }

/-- A concrete cleaned row. -/
def demoCleanRow : CleanRow :=
  [("Timestamp", ""), ("Operator", "Alice"), ("Sample Name", "S1")]

/-- A concrete pending payload preserved across the disambiguation
pause. -/
def demoPending : PendingUpload :=
  { project := "P1", synthesisType := "Solid Precursor", data := [demoCleanRow] }

/-- A successful upload capability response. -/
def demoOkResponse : UploadResponse := { success := true, message := "ok" }

/-- A not-found resolution response for the batch text B-404. -/
def demoNotFound : Resolution :=
  { status := ResolutionStatus.not_found, batch_id := none, input := "B-404", «matches» := [] }

/-- A sample row whose only non-blank cells are Operator and
Timestamp. -/
def demoBlankRow : SampleRow :=
  { id := "row-0",
    cells := [("Timestamp", "2024-01-01"), ("Operator", "Alice"), ("Sample Name", "  ")] }

/-- Auxiliary: searching a list of strings for an element equal to s
succeeds exactly when some element equals s, and then returns s
itself. -/
theorem find_string_eq (s : String) (l : List String) :
    l.find? (fun f => f == s) = if l.any (fun f => f == s) then some s else none := by
  induction l with
  | nil => rfl
  | cons a l ih =>
    by_cases h : a = s
    · subst h
      simp
    · have hb : (a == s) = false := by simpa using h
      simp [List.find?_cons, hb, ih]

/-- C10: removing the last row of an empty table is a guarded no-op: the
table stays empty and no cleaned-view notification is emitted to the
consumer. -/
theorem remove_row_empty_noop (fields : List String) :
    handleRemoveRow fields [] = ([], none) := rfl

/-- C2: cancelling from the suspended (not-found) disambiguation state
invokes the upload capability with exactly the payload built from the
preserved pending project, synthesis type and cleaned rows, with
batch_id null. -/
theorem cancel_builds_null_batch_payload (u : UserInfo) (pending : PendingUpload)
    (resp : UploadResponse) :
    (handleBatchResolutionCancel u pending resp).calls =
      [NetCall.uploadSynthesis
        { email := u.email, orcid := u.orcid, user_name := u.name,
          project := pending.project, synthesis_type := pending.synthesisType,
          batch_id := none, data := pending.data }] := rfl

/-- C1 counterexample: cancelling the disambiguation pause at a concrete
suspended submission does issue a network call (the calls list is
non-empty), and on a successful response the session moves to the
summary view rather than back to the editable main view. -/
theorem cancel_issues_network_call :
    (handleBatchResolutionCancel demoUser demoPending demoOkResponse).calls ≠ [] ∧
    (handleBatchResolutionCancel demoUser demoPending demoOkResponse).nextView ≠ View.main := by
  decide

/-- C1 (amended): cancellation during the disambiguation pause issues
exactly one network call, an upload built from the preserved pending
payload with batch_id null (never a resolve or create-batch call); it
discards the pending payload and the resolution state, and the session
moves to the summary view on upload success, returning to the editable
main view only on upload failure. -/
theorem cancel_uploads_and_clears (u : UserInfo) (pending : PendingUpload)
    (resp : UploadResponse) :
    (handleBatchResolutionCancel u pending resp).calls =
      [NetCall.uploadSynthesis
        (mkUploadData u pending.project pending.synthesisType none pending.data)] ∧
    (∀ b o p, NetCall.resolveBatch b o p ∉ (handleBatchResolutionCancel u pending resp).calls) ∧
    (∀ n i d o p,
      NetCall.createBatch n i d o p ∉ (handleBatchResolutionCancel u pending resp).calls) ∧
    (handleBatchResolutionCancel u pending resp).pendingUploadData = none ∧
    (handleBatchResolutionCancel u pending resp).batchResolution = none ∧
    (handleBatchResolutionCancel u pending resp).nextView =
      (if resp.success then View.summary else View.main) := by
  refine ⟨rfl, ?_, ?_, rfl, rfl, rfl⟩
  · intro b o p
    simp [handleBatchResolutionCancel]
  · intro n i d o p
    simp [handleBatchResolutionCancel]

/-- C9 counterexample: confirming the selection with the concrete unique
id B2, absent from the single-candidate list, is a silent no-op: the
handler does not raise the validation error. -/
theorem select_absent_counterexample :
    handleSelectBatch [{ unique_id := "B1", sample_name := "S1", description := "" }] "B2" =
      (SelectOutcome.noSelection, []) ∧
    SelectOutcome.noSelection ≠
      SelectOutcome.selectError "Please select a batch from the list" := by
  decide

/-- C9 (amended): when the chosen unique id is not a member of the
candidate list, selection never resolves and issues no network call; the
validation error is raised exactly when the chosen id is empty, while a
non-empty absent id is a silent no-op. -/
theorem select_match_behavior (ms : List BatchMatch) (chosen : String)
    (habs : ∀ m ∈ ms, m.unique_id ≠ chosen) :
    (∀ uid, (handleSelectBatch ms chosen).1 ≠ SelectOutcome.resolvedSelection uid) ∧
    (handleSelectBatch ms chosen).2 = [] ∧
    (chosen = "" → (handleSelectBatch ms chosen).1 =
      SelectOutcome.selectError "Please select a batch from the list") ∧
    (chosen ≠ "" → (handleSelectBatch ms chosen).1 = SelectOutcome.noSelection) := by
  have hfind : ms.find? (fun m => m.unique_id == chosen) = none := by
    rw [List.find?_eq_none]
    intro m hm
    simpa using habs m hm
  by_cases hc : chosen = ""
  · refine ⟨?_, ?_, fun _ => ?_, fun hne => absurd hc hne⟩ <;>
      simp [handleSelectBatch, hc]
  · refine ⟨?_, ?_, fun h => absurd h hc, fun _ => ?_⟩ <;>
      simp [handleSelectBatch, hc, hfind]

/-- C9 witness: the empty selection over a concrete candidate list
raises the validation error. -/
theorem select_match_behavior_witness :
    (handleSelectBatch [{ unique_id := "B1", sample_name := "S1", description := "" }] "").1 =
      SelectOutcome.selectError "Please select a batch from the list" :=
  (select_match_behavior [{ unique_id := "B1", sample_name := "S1", description := "" }] ""
    (by decide)).2.2.1 rfl

/-- C3: a submission that passes validation and carries a non-empty
batch identifier text, whose resolve response is not-found or
multiple-matches, suspends: the invocation's only network call is the
resolve call (in particular no upload call), the outcome carries the
resolution result together with the pending payload of the selected
project, synthesis type and cleaned rows unchanged, and the app handler
stores both and switches to the resolution view. -/
theorem suspend_preserves_pending (u : UserInfo) (project synthesisType batchId : String)
    (tableData : List CleanRow) (resp : Resolution) (s : AppState)
    (hp : ¬ project = "") (hs : ¬ synthesisType = "") (hd : ¬ tableData.length = 0)
    (hb : jsTrim batchId ≠ "")
    (hr : resp.status = ResolutionStatus.not_found ∨
      resp.status = ResolutionStatus.multiple_matches) :
    (handleUpload u project synthesisType batchId tableData resp).1 =
      UploadOutcome.suspended resp
        { project := project, synthesisType := synthesisType, data := tableData } ∧
    (handleUpload u project synthesisType batchId tableData resp).2 =
      [NetCall.resolveBatch (jsTrim batchId) u.orcid project] ∧
    (∀ payload,
      NetCall.uploadSynthesis payload ∉ (handleUpload u project synthesisType batchId tableData resp).2) ∧
    handleShowBatchResolution s resp
        { project := project, synthesisType := synthesisType, data := tableData } =
      { currentView := View.batch_resolution, batchResolution := some resp,
        pendingUploadData :=
          some { project := project, synthesisType := synthesisType, data := tableData } } := by
  have hmain : handleUpload u project synthesisType batchId tableData resp =
      (UploadOutcome.suspended resp
        { project := project, synthesisType := synthesisType, data := tableData },
       [NetCall.resolveBatch (jsTrim batchId) u.orcid project]) := by
    rw [handleUpload, if_neg hp, if_neg hs, if_neg hd, if_pos hb, if_pos hr]
  refine ⟨by rw [hmain], by rw [hmain], ?_, rfl⟩
  intro payload
  rw [hmain]
  simp

/-- C3 witness at a concrete validated submission whose batch text
resolves to not-found. -/
theorem suspend_preserves_pending_witness :
    (handleUpload demoUser "P1" "Solid Precursor" "B-404" [demoCleanRow] demoNotFound).1 =
      UploadOutcome.suspended demoNotFound
        { project := "P1", synthesisType := "Solid Precursor", data := [demoCleanRow] } :=
  (suspend_preserves_pending demoUser "P1" "Solid Precursor" "B-404" [demoCleanRow] demoNotFound
    { currentView := View.main, batchResolution := none, pendingUploadData := none }
    (by decide) (by decide) (by decide) (by decide) (Or.inl (by decide))).1

/-- C8: a submission with an empty project, or a non-empty project and
empty synthesis type, or non-empty selections and an empty cleaned
snapshot, fails fast with the distinct validation message of the first
failing check, issuing no network call; the three messages are pairwise
distinct. -/
theorem validation_fails_fast (u : UserInfo) (project synthesisType batchId : String)
    (tableData : List CleanRow) (resp : Resolution) :
    (project = "" →
      handleUpload u project synthesisType batchId tableData resp =
        (UploadOutcome.validationError "Please select a project", [])) ∧
    (¬ project = "" → synthesisType = "" →
      handleUpload u project synthesisType batchId tableData resp =
        (UploadOutcome.validationError "Please select a synthesis type", [])) ∧
    (¬ project = "" → ¬ synthesisType = "" → tableData = [] →
      handleUpload u project synthesisType batchId tableData resp =
        (UploadOutcome.validationError "Please enter at least one row of data", [])) ∧
    ("Please select a project" ≠ "Please select a synthesis type" ∧
     "Please select a project" ≠ "Please enter at least one row of data" ∧
     "Please select a synthesis type" ≠ "Please enter at least one row of data") := by
  refine ⟨fun hp => ?_, fun hp hs => ?_, fun hp hs hd => ?_, by decide⟩
  · rw [handleUpload, if_pos hp]
  · rw [handleUpload, if_neg hp, if_pos hs]
  · rw [handleUpload, if_neg hp, if_neg hs, if_pos (by simp [hd])]

/-- C8 witness: the concrete submission with no project selected fails
with the project message and no network call. -/
theorem validation_fails_fast_witness :
    handleUpload demoUser "" "Solid Precursor" "B-404" [demoCleanRow] demoNotFound =
      (UploadOutcome.validationError "Please select a project", []) :=
  (validation_fails_fast demoUser "" "Solid Precursor" "B-404" [demoCleanRow] demoNotFound).1 rfl

/-- Auxiliary: projecting the key back out of the column descriptors the
component builds for the other fields recovers the field list. -/
theorem map_key_cols (l : List String) :
    List.map (Column.key ∘ fun f => ({ key := f, name := f, width := 150 } : Column)) l = l := by
  induction l with
  | nil => rfl
  | cons a l ih => simp only [List.map_cons, Function.comp_apply, ih]

/-- C4: for every schema, the paste mapping order equals the specified
order (Sample Name first when present, then Operator, then Timestamp,
then the remaining fields in their original relative order excluding the
two anchors, then Sample Description last when present); the rendered
columns of a non-empty schema use exactly the same order; and the order
depends only on the presence of the two anchor fields and on the
sequence of other fields. -/
theorem column_order_spec (fields fields2 : List String) :
    pasteColumnOrder fields = specColumnOrder fields ∧
    (fields ≠ [] → (columns fields).map Column.key = specColumnOrder fields) ∧
    (fields.any (fun f => f == "Sample Name") = fields2.any (fun f => f == "Sample Name") →
     fields.any (fun f => f == "Sample Description") =
       fields2.any (fun f => f == "Sample Description") →
     fields.filter (fun f => !(f == "Sample Name") && !(f == "Sample Description")) =
       fields2.filter (fun f => !(f == "Sample Name") && !(f == "Sample Description")) →
     specColumnOrder fields = specColumnOrder fields2) := by
  refine ⟨?_, ?_, ?_⟩
  · rw [pasteColumnOrder, specColumnOrder, find_string_eq, find_string_eq]
    by_cases h1 : fields.any (fun f => f == "Sample Name") <;>
      by_cases h2 : fields.any (fun f => f == "Sample Description") <;>
        simp [h1, h2]
  · intro hne
    rw [columns, if_neg (fun h => hne (List.length_eq_zero.mp h)),
      specColumnOrder, find_string_eq, find_string_eq]
    by_cases h1 : fields.any (fun f => f == "Sample Name") <;>
      by_cases h2 : fields.any (fun f => f == "Sample Description") <;>
        simp [h1, h2, List.map_append, List.map_map, map_key_cols]
  · intro hsn hsd hoth
    rw [specColumnOrder, specColumnOrder, hsn, hsd, hoth]

/-- C4 witness: a concrete schema renders in the specified order, and a
permutation of it with the same other-field sequence derives the same
order. -/
theorem column_order_spec_witness :
    (columns ["Sample Name", "Concentration"]).map Column.key =
      specColumnOrder ["Sample Name", "Concentration"] ∧
    specColumnOrder ["Concentration", "Sample Name"] =
      specColumnOrder ["Sample Name", "Concentration"] :=
  ⟨(column_order_spec ["Sample Name", "Concentration"] []).2.1 (by decide),
   (column_order_spec ["Concentration", "Sample Name"] ["Sample Name", "Concentration"]).2.2
     (by decide) (by decide) (by decide)⟩

/-- C5 counterexample: pasting the scenario text with the concrete
operator name Alice does not produce the claimed values: the Timestamp
cells of the two produced rows are empty rather than the pasted dates,
and the Operator cells hold the pasted dates rather than the operator
name. -/
theorem paste_scenario_counterexample :
    ((handlePaste ["Sample Name", "Concentration"] "Alice" []
        "Alpha\t2024-01-01\nBeta\t2024-01-02").map (fun r => getCell r "Timestamp") ≠
      ["2024-01-01", "2024-01-02"]) ∧
    ((handlePaste ["Sample Name", "Concentration"] "Alice" []
        "Alpha\t2024-01-01\nBeta\t2024-01-02").map (fun r => getCell r "Operator") ≠
      ["Alice", "Alice"]) := by
  decide

/-- C5 (amended): pasting the scenario text into an empty table under
the schema of Sample Name and Concentration appends exactly two rows,
and since the fixed column order places Operator second, the second cell
of each pasted line lands in Operator: the rows read Sample Name Alpha
with Operator 2024-01-01 and Sample Name Beta with Operator 2024-01-02,
with Timestamp and Concentration empty, whatever the current operator
name is. -/
theorem paste_scenario_amended (operatorName : String) :
    handlePaste ["Sample Name", "Concentration"] operatorName []
        "Alpha\t2024-01-01\nBeta\t2024-01-02" =
      [{ id := "row-0",
         cells := [("Timestamp", ""), ("Operator", "2024-01-01"),
                   ("Sample Name", "Alpha"), ("Concentration", "")] },
       { id := "row-1",
         cells := [("Timestamp", ""), ("Operator", "2024-01-02"),
                   ("Sample Name", "Beta"), ("Concentration", "")] }] := by
  rfl

/-- C6: the cleaned snapshot is the ordered sequence of rows with the
transient id stripped, excluding exactly the rows in which every schema
field is empty or whitespace-only; and a row whose only non-blank cells
are the non-schema fields Operator and Timestamp is excluded. -/
theorem cleaned_snapshot_correct (fields : List String) (rows : List SampleRow) (r : SampleRow) :
    cleanedRows fields rows =
      (rows.filter (fun x => decide (¬ rowIsBlank fields x))).map SampleRow.cells ∧
    ("Operator" ∉ fields → "Timestamp" ∉ fields →
      (∀ p ∈ r.cells, p.1 ≠ "Operator" → p.1 ≠ "Timestamp" → jsTrim p.2 = "") →
      rowNonEmpty fields r = false) := by
  constructor
  · have hpt : ∀ x ∈ rows, rowNonEmpty fields x = decide (¬ rowIsBlank fields x) := by
      intro x _
      by_cases h : rowIsBlank fields x
      · have hfalse : rowNonEmpty fields x = false := by
          simp only [rowNonEmpty, List.any_eq_false]
          intro f hf
          simp [h f hf]
        rw [hfalse]
        exact (decide_eq_false (not_not_intro h)).symm
      · have htrue : rowNonEmpty fields x = true := by
          simp only [rowNonEmpty, List.any_eq_true]
          rw [rowIsBlank] at h
          push_neg at h
          rcases h with ⟨f, hf, hne⟩
          exact ⟨f, hf, by simpa using hne⟩
        rw [htrue]
        exact (decide_eq_true h).symm
    rw [cleanedRows, List.filter_congr hpt]
  · intro hO hT hblank
    simp only [rowNonEmpty, List.any_eq_false]
    intro f hf
    have hfO : f ≠ "Operator" := fun h => hO (h ▸ hf)
    have hfT : f ≠ "Timestamp" := fun h => hT (h ▸ hf)
    rcases hfind : r.cells.find? (fun p => p.1 == f) with _ | p
    · simp [getCell, hfind]
      decide
    · have hp : p ∈ r.cells := List.mem_of_find?_eq_some hfind
      have hpf : p.1 = f := by
        have := List.find?_some hfind
        simpa using this
      have hblankp : jsTrim p.2 = "" := hblank p hp (hpf ▸ hfO) (hpf ▸ hfT)
      simp [getCell, hfind, hblankp]

/-- C6 witness: under a concrete one-field schema, a row whose only
non-blank cells are Operator and Timestamp does not pass the non-empty
filter. -/
theorem cleaned_snapshot_correct_witness :
    rowNonEmpty ["Sample Name"] demoBlankRow = false :=
  (cleaned_snapshot_correct ["Sample Name"] [] demoBlankRow).2
    (by decide) (by decide) (by decide)

/-- C7: a paste appends exactly one row per non-blank line of the pasted
text, never replacing or removing existing rows (they remain the
unchanged prefix of the table), and pasting the empty text appends zero
rows, leaving the table unchanged. -/
theorem paste_appends_rows (fields : List String) (operatorName : String)
    (rows : List SampleRow) (pastedData : String) :
    (handlePaste fields operatorName rows pastedData).length =
      rows.length + (nonBlankLines pastedData).length ∧
    (handlePaste fields operatorName rows pastedData).take rows.length = rows ∧
    handlePaste fields operatorName rows "" = rows := by
  refine ⟨?_, ?_, rfl⟩
  · simp only [handlePaste, nonBlankLines]
    by_cases h : ((splitChar '\n' pastedData).filter (fun l => !(jsTrim l == ""))).length = 0
    · rw [if_pos h, h, Nat.add_zero]
    · rw [if_neg h]
      simp [List.enum_length]
  · simp only [handlePaste]
    by_cases h : ((splitChar '\n' pastedData).filter (fun l => !(jsTrim l == ""))).length = 0
    · rw [if_pos h, List.take_length]
    · rw [if_neg h, List.take_left]

end Synthesis
